import Mathlib

set_option maxRecDepth 4000

/-!
Verification of the ota-update server/client core.

This file gives a shallow embedding, in Lean 4, of the pure algorithms and the
route/agent logic of the repository:

* `packages/server/src/services/rollout.ts` — version comparison, rollout
  bucketing, release resolution, rollout activation/deactivation;
* `packages/server/src/services/cache.ts` and
  `packages/server/src/routes/updates.ts` — the check-update and report-event
  handlers, including the KV cache;
* `packages/react-native/src/utils/verification.ts` — bundle verification;
* `packages/react-native/src/utils/storage.ts` — bundle validation and
  corrupted-bundle recovery;
* `packages/react-native/src/hooks/useOTAUpdate.ts` — the download step of the
  update lifecycle agent.

Databases are modelled as lists of rows, the KV cache as an association list,
asynchronous effects as explicit parameters (the result of a download, the
hash function), and JavaScript numbers as `Int` with explicit 32-bit
truncation where the source relies on it.  JavaScript truthiness of strings
(`null` and `""` are both falsy) is modelled explicitly wherever the source
branches on a string value.
-/

namespace OTA

/-! ## Version comparison
Source: `compareVersions` in `packages/server/src/services/rollout.ts`.
`v.split('.')` is modelled by `splitDots`, `Number(component) || 0` by
`jsNum` (the JS coercion maps a decimal numeral to its value and anything
that fails to parse — `NaN` — to `0` through `|| 0`; an empty component is
`Number("") = 0`).  The `for` loop over `Math.max(len1, len2)` indices with
`parts[i] || 0` is modelled by the fuel-indexed loop `cmpLoop`. -/

def digitsVal (cs : List Char) : Nat :=
  cs.foldl (fun a c => a * 10 + (c.toNat - 48)) 0

/-- JS `Number(s) || 0` on one dot-free version component: a (possibly
negatively signed) decimal numeral maps to its value, everything else to 0. -/
def jsNum (cs : List Char) : Int :=
  if cs ≠ [] ∧ cs.all Char.isDigit then (digitsVal cs : Int)
  else
    match cs with
    | '-' :: rest =>
      if rest ≠ [] ∧ rest.all Char.isDigit then -(digitsVal rest : Int) else 0
    | _ => 0

/-- JS `String.prototype.split('.')`: `"".split('.') = [""]`. -/
def splitDots : List Char → List (List Char)
  | [] => [[]]
  | c :: rest =>
    let r := splitDots rest
    if c = '.' then [] :: r
    else (c :: r.headD []) :: r.tail

def versionParts (v : String) : List Int :=
  (splitDots v.toList).map jsNum

/-- The comparison loop: runs for `fuel` indices, each side contributing
`parts[i] || 0`, returning on the first strict difference. -/
def cmpLoop : Nat → List Int → List Int → Int
  | 0, _, _ => 0
  | n + 1, xs, ys =>
    let x := xs.headD 0
    let y := ys.headD 0
    if x > y then 1 else if x < y then -1 else cmpLoop n xs.tail ys.tail

def compareVersions (v1 v2 : String) : Int :=
  let p1 := versionParts v1
  let p2 := versionParts v2
  cmpLoop (max p1.length p2.length) p1 p2

/-- `isAppVersionCompatible` from `rollout.ts`.  `minAppVersion &&` is JS
truthiness on a `string | null`: the bound is applied only when present and
non-empty. -/
def isAppVersionCompatible (appVersion : String)
    (minAppVersion maxAppVersion : Option String) : Bool :=
  if minAppVersion.getD "" ≠ "" ∧ compareVersions appVersion (minAppVersion.getD "") < 0 then
    false
  else if maxAppVersion.getD "" ≠ "" ∧ compareVersions appVersion (maxAppVersion.getD "") > 0 then
    false
  else
    true

/-! ## Rollout bucketing
Source: `shouldReceiveUpdate` and `simpleHash` in `rollout.ts`.  The JS hash
keeps a 32-bit signed accumulator: `hash << 5` coerces to int32, the
subtraction and the addition of the UTF-16 code unit are exact, and
`hash & hash` coerces the sum back to int32. -/

/-- JS `ToInt32`. -/
def toInt32 (n : Int) : Int :=
  (n + 2 ^ 31) % 2 ^ 32 - 2 ^ 31

def hashStep (h : Int) (c : Nat) : Int :=
  toInt32 (toInt32 (h * 32) - h + c)

/-- `simpleHash` of `rollout.ts`: fold the step over the code units, then
`Math.abs`. -/
def simpleHash (s : String) : Int :=
  (((s.toList.map Char.toNat).foldl hashStep 0).natAbs : Int)

/-- `shouldReceiveUpdate` of `rollout.ts`. -/
def shouldReceiveUpdate (deviceId : String) (percentage : Int) : Bool :=
  if percentage ≥ 100 then true
  else if percentage ≤ 0 then false
  else simpleHash deviceId % 100 < percentage

/-! ## Server data model
Rows of the `releases` and `rollouts` tables (`db/schema.sql`); timestamps
`started_at` / `completed_at` of rollouts are wall-clock bookkeeping that no
claim depends on and are not modelled.  `is_mandatory` is an `INTEGER` used
as a flag (`0`/`1`), modelled as `Bool`. -/

structure Release where
  id : String
  app_id : String
  channel_id : String
  version : String
  bundle_hash : String
  bundle_signature : Option String
  bundle_size : Int
  min_app_version : Option String
  max_app_version : Option String
  is_mandatory : Bool
  release_notes : Option String
  created_at : Int
deriving DecidableEq, Repr

structure Rollout where
  id : String
  release_id : String
  percentage : Int
  is_active : Bool
deriving DecidableEq, Repr

structure DB where
  releases : List Release
  rollouts : List Rollout
deriving DecidableEq, Repr

/-- `ReleaseWithRollout` of `rollout.ts`: a release row joined with the
`percentage` of its active rollout. -/
structure ReleaseWithRollout where
  release : Release
  rollout_percentage : Int
deriving DecidableEq, Repr

/-! ## getLatestActiveRelease
The SQL query joins `releases` with active `rollouts`, filters on app and
channel, orders by `created_at DESC` and limits to 10 rows; the loop then
returns the first compatible row the device is bucketed into. -/

def activeReleaseRows (db : DB) (appId channelId : String) : List ReleaseWithRollout :=
  db.releases.flatMap fun r =>
    if r.app_id = appId ∧ r.channel_id = channelId then
      (db.rollouts.filter fun ro => ro.release_id = r.id ∧ ro.is_active).map
        fun ro => ⟨r, ro.percentage⟩
    else []

/-- `ORDER BY r.created_at DESC`. -/
def newerFirst (x y : ReleaseWithRollout) : Prop :=
  y.release.created_at ≤ x.release.created_at

instance : DecidableRel newerFirst := fun x y => by
  unfold newerFirst; infer_instance

instance : IsTotal ReleaseWithRollout newerFirst :=
  ⟨fun x y => le_total y.release.created_at x.release.created_at⟩

instance : IsTrans ReleaseWithRollout newerFirst :=
  ⟨fun _ _ _ h1 h2 => le_trans h2 h1⟩

/-- The rows the resolver considers: the query result, newest first,
`LIMIT 10`. -/
def candidateRows (db : DB) (appId channelId : String) : List ReleaseWithRollout :=
  (List.insertionSort newerFirst (activeReleaseRows db appId channelId)).take 10

/-- The body of the `for` loop in `getLatestActiveRelease`: skip releases
that are not compatible with the app version, return the first one the
device is bucketed into. -/
def wantsRow (deviceId appVersion : String) (row : ReleaseWithRollout) : Bool :=
  isAppVersionCompatible appVersion row.release.min_app_version row.release.max_app_version
    && shouldReceiveUpdate deviceId row.rollout_percentage

def getLatestActiveRelease (db : DB) (appId channelId deviceId appVersion : String) :
    Option ReleaseWithRollout :=
  (candidateRows db appId channelId).find? (wantsRow deviceId appVersion)

/-! ## Rollout write operations
`createRollout`, `updateRolloutPercentage`, `deactivatePreviousRollouts` and
`rollbackToRelease` of `rollout.ts`, plus the release insertion of
`releases.post('/')`.  Each SQL statement is one state transition; a
sequence of statements exposes every intermediate state to concurrent
readers, which is what the publish/rollback step lists record. -/

def insertRelease (db : DB) (r : Release) : DB :=
  { db with releases := db.releases ++ [r] }

/-- `INSERT INTO rollouts (id, release_id, percentage, is_active) VALUES (?, ?, ?, 1)`. -/
def createRollout (db : DB) (rolloutId releaseId : String) (percentage : Int) : DB :=
  { db with rollouts := db.rollouts ++ [⟨rolloutId, releaseId, percentage, true⟩] }

/-- `UPDATE rollouts SET percentage = ? WHERE release_id = ?`. -/
def updateRolloutPercentage (db : DB) (releaseId : String) (percentage : Int) : DB :=
  { db with rollouts := db.rollouts.map fun ro =>
      if ro.release_id = releaseId then { ro with percentage := percentage } else ro }

/-- Does some release row of `(appId, channelId)` carry this id?  This is
the `release_id IN (SELECT id FROM releases WHERE app_id = ? AND
channel_id = ?)` membership test. -/
def chMember (rs : List Release) (appId channelId rid : String) : Bool :=
  rs.any fun r => r.id = rid ∧ r.app_id = appId ∧ r.channel_id = channelId

/-- The same subquery with `AND id != ?`. -/
def chMemberExcept (rs : List Release) (appId channelId excl rid : String) : Bool :=
  rs.any fun r =>
    r.id = rid ∧ r.app_id = appId ∧ r.channel_id = channelId ∧ r.id ≠ excl

/-- `deactivatePreviousRollouts`: deactivate every active rollout whose
release belongs to the channel and is not the excluded release. -/
def deactivatePreviousRollouts (db : DB) (appId channelId excludeReleaseId : String) : DB :=
  { db with rollouts := db.rollouts.map fun ro =>
      if chMemberExcept db.releases appId channelId excludeReleaseId ro.release_id
          && ro.is_active then
        { ro with is_active := false }
      else ro }

/-- First statement of `rollbackToRelease`: deactivate every active rollout
of the channel (no exclusion). -/
def rollbackDeactivate (db : DB) (appId channelId : String) : DB :=
  { db with rollouts := db.rollouts.map fun ro =>
      if chMember db.releases appId channelId ro.release_id && ro.is_active then
        { ro with is_active := false }
      else ro }

/-- Second statement of `rollbackToRelease`: `UPDATE rollouts SET
is_active = 1, percentage = 100 WHERE release_id = ?`. -/
def rollbackActivate (db : DB) (targetReleaseId : String) : DB :=
  { db with rollouts := db.rollouts.map fun ro =>
      if ro.release_id = targetReleaseId then
        { ro with is_active := true, percentage := 100 }
      else ro }

/-- The states a reader can observe while `releases.post('/')` publishes a
release: before, after the release insert, after `createRollout` (the route
passes percentage 100), and after `deactivatePreviousRollouts`. -/
def publishStates (db : DB) (r : Release) (rolloutId : String) (percentage : Int) : List DB :=
  let s1 := insertRelease db r
  let s2 := createRollout s1 rolloutId r.id percentage
  let s3 := deactivatePreviousRollouts s2 r.app_id r.channel_id r.id
  [db, s1, s2, s3]

/-- The states a reader can observe during `rollbackToRelease`. -/
def rollbackStates (db : DB) (appId channelId targetReleaseId : String) : List DB :=
  let s1 := rollbackDeactivate db appId channelId
  let s2 := rollbackActivate s1 targetReleaseId
  [db, s1, s2]

/-- The states a reader can observe during a rollout-percentage update. -/
def updateStates (db : DB) (releaseId : String) (percentage : Int) : List DB :=
  [db, updateRolloutPercentage db releaseId percentage]

/-- The active rollouts a reader attributes to `(appId, channelId)`. -/
def activeRollouts (db : DB) (appId channelId : String) : List Rollout :=
  db.rollouts.filter fun ro =>
    ro.is_active && chMember db.releases appId channelId ro.release_id

/-- The invariant: at most one active rollout per `(app, channel)`. -/
def atMostOneActive (db : DB) (appId channelId : String) : Prop :=
  (activeRollouts db appId channelId).length ≤ 1

instance (db : DB) (a c : String) : Decidable (atMostOneActive db a c) := by
  unfold atMostOneActive; infer_instance

/-! ## Concrete fixtures
Small concrete database states used to evaluate the claim theorems on
explicit inputs. -/

def relA : Release :=
  { id := "r1", app_id := "app1", channel_id := "ch1", version := "1.0.0",
    bundle_hash := "sha256:aaa", bundle_signature := none, bundle_size := 10,
    min_app_version := none, max_app_version := none, is_mandatory := false,
    release_notes := none, created_at := 1 }

def relB : Release :=
  { relA with
    id := "r2"
    version := "1.0.1"
    created_at := 2
    min_app_version := some "2.0.0" }

/-- Two releases on one channel, both with an active 100% rollout. -/
def dbAB : DB :=
  { releases := [relA, relB],
    rollouts := [⟨"ro1", "r1", 100, true⟩, ⟨"ro2", "r2", 100, true⟩] }

/-- One release whose rollout is active at 0%. -/
def dbZero : DB :=
  { releases := [relA], rollouts := [⟨"ro1", "r1", 0, true⟩] }

/-- One release with one active rollout: the invariant holds. -/
def dbOne : DB :=
  { releases := [relA], rollouts := [⟨"ro1", "r1", 100, true⟩] }

/-- A fresh release for the same channel, about to be published. -/
def relC : Release :=
  { relA with
    id := "r3"
    version := "1.1.0"
    created_at := 3 }

/-! ## Bundle verification
Source: `packages/react-native/src/utils/verification.ts`.  Bundle bytes are
`List Nat`; the SHA-256 backend and the Ed25519 backend are explicit
function parameters (`sha` produces the hex digest without the tag, `sigOk`
is the signature check).  The `try/catch` wrappers around the two backends
guard environmental failures (no crypto implementation present) and are not
modelled: the backends here are total functions. -/

structure VerificationResult where
  valid : Bool
  hashValid : Bool
  signatureValid : Bool
  error : Option String
deriving DecidableEq, Repr

/-- `calculateHash`: hex digest prefixed with the algorithm tag. -/
def calculateHash (sha : List Nat → String) (data : List Nat) : String :=
  "sha256:" ++ sha data

def verifyBundleHash (sha : List Nat → String) (data : List Nat)
    (expectedHash : String) : Bool :=
  calculateHash sha data = expectedHash

/-- JS truthiness of a `string | null`. -/
def truthy (s : Option String) : Bool :=
  s.getD "" ≠ ""

/-- `verifyBundle`: hash first (short-circuit on mismatch), then the
signature, checked only when both `signature` and `publicKey` are truthy. -/
def verifyBundle (sha : List Nat → String)
    (sigOk : List Nat → String → String → Bool) (data : List Nat)
    (expectedHash : String) (signature publicKey : Option String) :
    VerificationResult :=
  if ¬ verifyBundleHash sha data expectedHash then
    { valid := false, hashValid := false, signatureValid := false,
      error := some "Bundle hash mismatch" }
  else if truthy signature ∧ truthy publicKey then
    if sigOk data (signature.getD "") (publicKey.getD "") then
      { valid := true, hashValid := true, signatureValid := true, error := none }
    else
      { valid := false, hashValid := true, signatureValid := false,
        error := some "Invalid bundle signature" }
  else
    { valid := true, hashValid := true, signatureValid := true, error := none }

/-- A concrete hash backend for evaluating the claims on explicit inputs. -/
def shaFix : List Nat → String := fun data => String.intercalate "-" (data.map toString)

/-- A concrete signature backend that rejects everything. -/
def sigFix : List Nat → String → String → Bool := fun _ _ _ => false

/-! ## Client bundle storage
Source: `UpdateStorage` in `packages/react-native/src/utils/storage.ts`.
The filesystem under the private `ota-update/` directory is a finite map
from release id to bundle bytes; `current.json` is the `metadata` field and
the native pointer (SharedPreferences / UserDefaults) the `nativePending`
field.  `downloadedAt` is a wall-clock timestamp and is stored as given by
the caller. -/

structure StoredUpdate where
  releaseId : String
  version : String
  bundlePath : String
  bundleHash : String
  downloadedAt : Int
deriving DecidableEq, Repr

structure ClientStore where
  files : List (String × List Nat)
  metadata : Option StoredUpdate
  nativePending : Option String
deriving DecidableEq, Repr

def readBundle (cs : ClientStore) (releaseId : String) : Option (List Nat) :=
  (cs.files.find? fun f => f.1 = releaseId).map Prod.snd

def deleteBundle (cs : ClientStore) (releaseId : String) : ClientStore :=
  { cs with files := cs.files.filter fun f => ¬ f.1 = releaseId }

def saveBundle (cs : ClientStore) (releaseId : String) (data : List Nat) : ClientStore :=
  { cs with files := (cs.files.filter fun f => ¬ f.1 = releaseId) ++ [(releaseId, data)] }

/-- `baseDir + releaseId + ".bundle"`, already normalized. -/
def bundlePathOf (releaseId : String) : String :=
  "ota-update/" ++ releaseId ++ ".bundle"

def saveMetadata (cs : ClientStore) (md : StoredUpdate) : ClientStore :=
  { cs with metadata := some md }

def clearMetadata (cs : ClientStore) : ClientStore :=
  { cs with metadata := none }

def clearNativePendingBundle (cs : ClientStore) : ClientStore :=
  { cs with nativePending := none }

def registerBundleWithNative (cs : ClientStore) (path : String) : ClientStore :=
  { cs with nativePending := some path }

/-! ### validateBundle
The first `min(1000, length)` bytes become a JS string through
`String.fromCharCode`, are trimmed, and are tested against HTML markers and
a fixed list of JavaScript indicators.  The `^…` regexes of the source are
anchored literal patterns, modelled as explicit character tests. -/

/-- The JS whitespace characters `trim` and `\s` strip (the common BMP
set). -/
def jsSpace (ch : Char) : Bool :=
  ch = ' ' || ch = '\t' || ch = '\n' || ch = '\r' || ch = '\x0b' ||
    ch = '\x0c' || ch = '\u00A0'

def trimChars (cs : List Char) : List Char :=
  ((cs.dropWhile jsSpace).reverse.dropWhile jsSpace).reverse

def leadsWith : List Char → List Char → Bool
  | [], _ => true
  | _ :: _, [] => false
  | p :: ps, c :: cs => p = c && leadsWith ps cs

def hasSub (needle : List Char) : List Char → Bool
  | [] => needle.isEmpty
  | c :: cs => leadsWith needle (c :: cs) || hasSub needle cs

/-- `String.prototype.startsWith`. -/
def startsWithS (s : String) (t : List Char) : Bool :=
  leadsWith s.toList t

/-- `String.prototype.includes`. -/
def containsS (s : String) (t : List Char) : Bool :=
  hasSub s.toList t

def looksHtml (t : List Char) : Bool :=
  startsWithS "<!DOCTYPE" t || startsWithS "<!doctype" t || startsWithS "<html" t ||
    startsWithS "<HTML" t || containsS "<head>" t || containsS "<body>" t

/-- `^kw\s`. -/
def kwThenSpace (kw : String) (t : List Char) : Bool :=
  startsWithS kw t && jsSpace ((t.drop kw.toList.length).headD '!')

def isQuote (ch : Char) : Bool :=
  ch = '"' || ch.toNat = 39

/-- `^["']use strict["']`. -/
def useStrictQuoted (t : List Char) : Bool :=
  match t with
  | q1 :: rest =>
    isQuote q1 && leadsWith "use strict".toList rest && isQuote ((rest.drop 10).headD '!')
  | [] => false

/-- `^\/[/*]`. -/
def slashStart (t : List Char) : Bool :=
  match t with
  | c1 :: c2 :: _ => c1 = '/' && (c2 = '/' || c2 = '*')
  | _ => false

def jsIndicator (t : List Char) : Bool :=
  kwThenSpace "var" t || kwThenSpace "let" t || kwThenSpace "const" t ||
    startsWithS "(function" t || startsWithS "!function" t || useStrictQuoted t ||
    startsWithS "Object.defineProperty" t || startsWithS "__d(" t || slashStart t ||
    startsWithS "\"use strict\"" t || startsWithS "__BUNDLE_START_TIME__" t

def jsSubstrIndicator (t : List Char) : Bool :=
  containsS "function" t || containsS "exports" t || containsS "require(" t ||
    containsS "__d(" t

/-- `String.fromCharCode` over the bytes. -/
def bytesToChars (bs : List Nat) : List Char :=
  bs.map Char.ofNat

def validateBundle (cs : ClientStore) (releaseId : String) : Bool :=
  match readBundle cs releaseId with
  | none => false
  | some data =>
    if data.length < 10 then false
    else
      let trimmed := trimChars (bytesToChars (data.take 1000))
      if looksHtml trimmed then false
      else if jsIndicator trimmed then true
      else if jsSubstrIndicator trimmed then true
      else false

/-- `clearCorruptedBundle`: startup recovery — returns whether a corrupted
bundle was cleared, clearing bundle file, metadata and native pointer
together. -/
def clearCorruptedBundle (cs : ClientStore) : Bool × ClientStore :=
  match cs.metadata with
  | none => (false, cs)
  | some md =>
    if validateBundle cs md.releaseId then (false, cs)
    else (true, clearNativePendingBundle (clearMetadata (deleteBundle cs md.releaseId)))

/-- Metadata pointing at the binary artifact below. -/
def mdBin : StoredUpdate :=
  ⟨"rbin", "1.0.0", bundlePathOf "rbin", "sha256:xyz", 0⟩

/-- A store holding a well-formed (correctly hashed, say) artifact that is
neither HTML nor JavaScript-looking: arbitrary binary. -/
def binStore : ClientStore :=
  { files := [("rbin", [0, 1, 2, 3, 4, 5, 6, 7, 8, 9, 250, 251, 252, 253, 254, 255])],
    metadata := some mdBin,
    nativePending := some (bundlePathOf "rbin") }

/-! ## The download step of the update lifecycle agent
Source: `downloadUpdate` in `packages/react-native/src/hooks/useOTAUpdate.ts`.
The network fetch is the explicit parameter `dl`; the crypto backends are
the same parameters as in `verifyBundle`.  The `saveBundle`, `saveMetadata`
and `registerBundleWithNative` steps are the storage operations above (the
native module is taken as present); `Date.now()` is not modelled and the
stored `downloadedAt` is 0. -/

structure ReleaseInfo where
  id : String
  version : String
  bundleUrl : String
  bundleHash : String
  bundleSignature : Option String
  bundleSize : Int
  isMandatory : Bool
  releaseNotes : Option String
deriving DecidableEq, Repr

structure ClientEvent where
  eventType : String
  releaseId : String
  errorMessage : Option String
deriving DecidableEq, Repr

inductive UpdateStatus where
  | idle
  | checking
  | available
  | downloading
  | verifying
  | ready
  | applying
  | error
  | upToDate
deriving DecidableEq, Repr

structure AgentState where
  status : UpdateStatus
  lastError : Option String
  store : ClientStore
  progressPct : Int
  events : List ClientEvent
deriving DecidableEq, Repr

def downloadUpdate (sha : List Nat → String)
    (sigOk : List Nat → String → String → Bool) (release : ReleaseInfo)
    (publicKey : Option String) (dl : Except String (List Nat))
    (s : AgentState) : AgentState :=
  let s1 : AgentState :=
    { s with
      status := .downloading
      progressPct := 0
      events := s.events ++ [⟨"download", release.id, none⟩] }
  match dl with
  | .error msg =>
    { s1 with
      status := .error
      lastError := some msg
      events := s1.events ++ [⟨"failure", release.id, some msg⟩] }
  | .ok bundleData =>
    let s2 : AgentState := { s1 with progressPct := 100, status := .verifying }
    let v := verifyBundle sha sigOk bundleData release.bundleHash
      release.bundleSignature publicKey
    if v.valid then
      let path := bundlePathOf release.id
      { s2 with
        status := .ready
        store := registerBundleWithNative
          (saveMetadata (saveBundle s2.store release.id bundleData)
            ⟨release.id, release.version, path, release.bundleHash, 0⟩) path }
    else
      let msg := v.error.getD "Bundle verification failed"
      { s2 with
        status := .error
        lastError := some msg
        events := s2.events ++ [⟨"failure", release.id, some msg⟩] }

/-- A release a device might be told to download. -/
def relX : ReleaseInfo :=
  ⟨"rX", "2.0.0", "http://s/api/v1/bundles/a1/rX/bundle.js", "sha256:h",
    none, 3, false, none⟩

/-- A store still holding a bundle file for `relX` from an earlier staged
attempt. -/
def staleStore : ClientStore :=
  { files := [("rX", [1, 2, 3])], metadata := none, nativePending := none }

def staleState : AgentState :=
  ⟨.available, none, staleStore, 0, []⟩

/-! ## Server routes
Source: `packages/server/src/routes/updates.ts` and
`packages/server/src/services/cache.ts`.  The KV cache is an association
list keyed by the `latest:slug:channel:platform` string; the 60-second TTL
is wall-clock behaviour and is not modelled (an entry is either present or
absent).  `nanoid` event ids, `device_info` JSON and `os_version` are not
modelled.  JS truthiness of request strings is explicit: a missing field
and an empty field are both rejected by the `!body.x` validations. -/

structure App where
  id : String
  slug : String
  platform : String
deriving DecidableEq, Repr

structure Channel where
  id : String
  app_id : String
  name : String
deriving DecidableEq, Repr

structure CachedLatestRelease where
  releaseId : String
  version : String
  bundleHash : String
  bundleSignature : Option String
  bundleSize : Int
  isMandatory : Bool
  minAppVersion : Option String
  maxAppVersion : Option String
  releaseNotes : Option String
deriving DecidableEq, Repr

structure EventRow where
  app_id : String
  release_id : Option String
  device_id : String
  event_type : String
  app_version : Option String
  error_message : Option String
deriving DecidableEq, Repr

structure ServerState where
  apps : List App
  channels : List Channel
  db : DB
  cache : List (String × CachedLatestRelease)
  events : List EventRow
deriving DecidableEq, Repr

structure CheckUpdateRequest where
  appSlug : String
  channel : String
  platform : String
  currentVersion : Option String
  appVersion : String
  deviceId : String
deriving DecidableEq, Repr

structure ReleaseResp where
  id : String
  version : String
  bundleUrl : String
  bundleHash : String
  bundleSignature : Option String
  bundleSize : Int
  isMandatory : Bool
  releaseNotes : Option String
deriving DecidableEq, Repr

structure CheckUpdateResponse where
  updateAvailable : Bool
  release : Option ReleaseResp
deriving DecidableEq, Repr

inductive RouteReply where
  | badRequest (msg : String)
  | notFound (msg : String)
  | ok (resp : CheckUpdateResponse)
deriving DecidableEq, Repr

def latestReleaseKey (appSlug channel platform : String) : String :=
  "latest:" ++ appSlug ++ ":" ++ channel ++ ":" ++ platform

def getCachedLatestRelease (cache : List (String × CachedLatestRelease))
    (appSlug channel platform : String) : Option CachedLatestRelease :=
  (cache.find? fun e => e.1 = latestReleaseKey appSlug channel platform).map Prod.snd

def setCachedLatestRelease (cache : List (String × CachedLatestRelease))
    (appSlug channel platform : String) (rel : CachedLatestRelease) :
    List (String × CachedLatestRelease) :=
  (latestReleaseKey appSlug channel platform, rel) ::
    cache.filter fun e => ¬ e.1 = latestReleaseKey appSlug channel platform

/-- `invalidateLatestReleaseCache` deletes the `ios`, `android` and `both`
platform variants of the channel key. -/
def invalidateLatestReleaseCache (cache : List (String × CachedLatestRelease))
    (appSlug channel : String) : List (String × CachedLatestRelease) :=
  cache.filter fun e =>
    ¬ (e.1 = latestReleaseKey appSlug channel "ios" ∨
       e.1 = latestReleaseKey appSlug channel "android" ∨
       e.1 = latestReleaseKey appSlug channel "both")

/-- `getBundleUrl` of `services/storage.ts`. -/
def getBundleUrl (baseUrl appId releaseId : String) : String :=
  baseUrl ++ "/api/v1/bundles/" ++ appId ++ "/" ++ releaseId ++ "/bundle.js"

/-- The projection cached by the check-update handler on a miss. -/
def toCachedRelease (rel : ReleaseWithRollout) : CachedLatestRelease :=
  ⟨rel.release.id, rel.release.version, rel.release.bundle_hash,
   rel.release.bundle_signature, rel.release.bundle_size,
   rel.release.is_mandatory, rel.release.min_app_version,
   rel.release.max_app_version, rel.release.release_notes⟩

/-- The tail of the check-update handler shared by the cache-hit and
cache-miss paths: version-bound compatibility on the cached projection, the
re-read of the live rollout, the current-version gate, then the response. -/
def finishCheck (st : ServerState) (baseUrl : String) (app : App)
    (req : CheckUpdateRequest) (cr : CachedLatestRelease) :
    RouteReply × ServerState :=
  if ¬ isAppVersionCompatible req.appVersion cr.minAppVersion cr.maxAppVersion then
    (.ok ⟨false, none⟩, st)
  else
    match st.db.rollouts.find? fun ro => ro.release_id = cr.releaseId ∧ ro.is_active with
    | none => (.ok ⟨false, none⟩, st)
    | some ro =>
      if ¬ shouldReceiveUpdate req.deviceId ro.percentage then
        (.ok ⟨false, none⟩, st)
      else if req.currentVersion.getD "" ≠ "" ∧
          compareVersions (req.currentVersion.getD "") cr.version ≥ 0 then
        (.ok ⟨false, none⟩, st)
      else
        (.ok ⟨true, some ⟨cr.releaseId, cr.version,
          getBundleUrl baseUrl app.id cr.releaseId, cr.bundleHash,
          cr.bundleSignature, cr.bundleSize, cr.isMandatory, cr.releaseNotes⟩⟩, st)

def checkUpdate (st : ServerState) (baseUrl : String) (req : CheckUpdateRequest) :
    RouteReply × ServerState :=
  if req.appSlug = "" ∨ req.channel = "" ∨ req.platform = "" ∨
      req.appVersion = "" ∨ req.deviceId = "" then
    (.badRequest "appSlug, channel, platform, appVersion, and deviceId are required", st)
  else if ¬ (req.platform = "ios" ∨ req.platform = "android") then
    (.badRequest "platform must be ios or android", st)
  else
    match st.apps.find? fun a => a.slug = req.appSlug with
    | none => (.notFound "App not found", st)
    | some app =>
      if app.platform ≠ "both" ∧ app.platform ≠ req.platform then
        (.badRequest "Platform not supported for this app", st)
      else
        match st.channels.find? fun ch => ch.app_id = app.id ∧ ch.name = req.channel with
        | none => (.notFound "Channel not found", st)
        | some channel =>
          let st1 : ServerState := { st with
            events := st.events ++ [⟨app.id, none, req.deviceId, "check", some req.appVersion, none⟩] }
          match getCachedLatestRelease st1.cache req.appSlug req.channel req.platform with
          | some cr => finishCheck st1 baseUrl app req cr
          | none =>
            match getLatestActiveRelease st1.db app.id channel.id req.deviceId
                req.appVersion with
            | none => (.ok ⟨false, none⟩, st1)
            | some rel =>
              let cr := toCachedRelease rel
              let st2 : ServerState := { st1 with
                cache := setCachedLatestRelease st1.cache req.appSlug req.channel req.platform cr }
              finishCheck st2 baseUrl app req cr

/-! ## The report-event route -/

inductive EventReply where
  | badRequest (msg : String)
  | notFound (msg : String)
  | ok
deriving DecidableEq, Repr

structure ReportEventRequest where
  appSlug : String
  releaseId : Option String
  deviceId : String
  eventType : String
  errorMessage : Option String
  appVersion : Option String
deriving DecidableEq, Repr

/-- JS `x || null` on a `string | null | undefined`. -/
def jsOrNull (s : Option String) : Option String :=
  if s.getD "" = "" then none else s

def validEventTypes : List String :=
  ["download", "apply", "success", "failure", "rollback"]

def reportEvent (st : ServerState) (req : ReportEventRequest) :
    EventReply × ServerState :=
  if req.appSlug = "" ∨ req.deviceId = "" ∨ req.eventType = "" then
    (.badRequest "appSlug, deviceId, and eventType are required", st)
  else if ¬ req.eventType ∈ validEventTypes then
    (.badRequest "eventType must be one of: download, apply, success, failure, rollback", st)
  else
    match st.apps.find? fun a => a.slug = req.appSlug with
    | none => (.notFound "App not found", st)
    | some app =>
      (.ok, { st with
        events := st.events ++ [⟨app.id, jsOrNull req.releaseId, req.deviceId,
          req.eventType, jsOrNull req.appVersion, jsOrNull req.errorMessage⟩] })

/-! ### Route fixtures -/

def relZ : Release :=
  { id := "rz", app_id := "a1", channel_id := "c1", version := "0.0.0",
    bundle_hash := "sha256:z", bundle_signature := none, bundle_size := 3,
    min_app_version := none, max_app_version := none, is_mandatory := false,
    release_notes := none, created_at := 1 }

/-- A server with one app, one channel, one release at 100%. -/
def srvZ : ServerState :=
  { apps := [⟨"a1", "app", "both"⟩], channels := [⟨"c1", "a1", "production"⟩],
    db := { releases := [relZ], rollouts := [⟨"roz", "rz", 100, true⟩] },
    cache := [], events := [] }

def crZ : CachedLatestRelease :=
  ⟨"rz", "0.0.0", "sha256:z", none, 3, false, none, none, none⟩

/-- The same server after the rollout was cut to 0% while the cache entry
(written at 100%) is still within its TTL. -/
def srvHitZero : ServerState :=
  { apps := [⟨"a1", "app", "both"⟩], channels := [⟨"c1", "a1", "production"⟩],
    db := { releases := [relZ], rollouts := [⟨"roz", "rz", 0, true⟩] },
    cache := [(latestReleaseKey "app" "production" "ios", crZ)], events := [] }

def reqEmptyCv : CheckUpdateRequest :=
  ⟨"app", "production", "ios", some "", "1.0.0", "device_abc123"⟩

def reqPlain : CheckUpdateRequest :=
  ⟨"app", "production", "ios", none, "1.0.0", "device_abc123"⟩

def reqCheckEvt : ReportEventRequest :=
  ⟨"app", none, "device_abc123", "check", none, none⟩

def relG : Release :=
  { relZ with
    id := "rg"
    version := "2.0.0"
    bundle_hash := "sha256:g" }

/-- A server whose single release is ahead of the device. -/
def srvG : ServerState :=
  { apps := [⟨"a1", "app", "both"⟩], channels := [⟨"c1", "a1", "production"⟩],
    db := { releases := [relG], rollouts := [⟨"rog", "rg", 100, true⟩] },
    cache := [], events := [] }

def reqCv1 : CheckUpdateRequest :=
  ⟨"app", "production", "ios", some "1.0.0", "1.0.0", "device_abc123"⟩

/-! ### Lemmas about the comparison loop -/

theorem cmpLoop_nil_nil (n : Nat) : cmpLoop n [] [] = 0 := by
  induction n with
  | zero => rfl
  | succ n ih => simpa [cmpLoop] using ih

theorem cmpLoop_refl (n : Nat) : ∀ l : List Int, cmpLoop n l l = 0 := by
  induction n with
  | zero => intro l; rfl
  | succ n ih => intro l; simp [cmpLoop, ih]

theorem cmpLoop_antisymm (n : Nat) :
    ∀ xs ys : List Int, cmpLoop n xs ys = -cmpLoop n ys xs := by
  induction n with
  | zero => intro xs ys; rfl
  | succ n ih =>
    intro xs ys
    rcases lt_trichotomy (xs.headD 0) (ys.headD 0) with h | h | h
    · simp only [cmpLoop]
      rw [if_neg (by omega), if_pos h, if_pos h]
    · simp only [cmpLoop]
      rw [if_neg (by omega), if_neg (by omega), if_neg (by omega), if_neg (by omega), ih]
    · simp only [cmpLoop]
      rw [if_pos h, if_neg (by omega), if_pos h]
      decide

/-- Transitivity of the induced (non-strict) order at a common fuel. -/
theorem cmpLoop_trans_ge (n : Nat) :
    ∀ xs ys zs : List Int, 0 ≤ cmpLoop n xs ys → 0 ≤ cmpLoop n ys zs →
      0 ≤ cmpLoop n xs zs := by
  induction n with
  | zero => intro xs ys zs _ _; simp [cmpLoop]
  | succ n ih =>
    intro xs ys zs h1 h2
    simp only [cmpLoop] at h1 h2 ⊢
    rcases lt_trichotomy (xs.headD 0) (ys.headD 0) with hxy | hxy | hxy
    · rw [if_neg (by omega), if_pos hxy] at h1; omega
    · rcases lt_trichotomy (ys.headD 0) (zs.headD 0) with hyz | hyz | hyz
      · rw [if_neg (by omega), if_pos hyz] at h2; omega
      · rw [if_neg (by omega), if_neg (by omega)] at h1
        rw [if_neg (by omega), if_neg (by omega)] at h2
        rw [if_neg (by omega), if_neg (by omega)]
        exact ih _ _ _ h1 h2
      · rw [if_pos (by omega)]; omega
    · rcases lt_trichotomy (ys.headD 0) (zs.headD 0) with hyz | hyz | hyz
      · rw [if_neg (by omega), if_pos hyz] at h2; omega
      · rw [if_pos (by omega)]; omega
      · rw [if_pos (by omega)]; omega

/-- The loop ignores fuel beyond both list lengths. -/
theorem cmpLoop_fuel (n : Nat) :
    ∀ (m : Nat) (xs ys : List Int), max xs.length ys.length ≤ n →
      max xs.length ys.length ≤ m → cmpLoop n xs ys = cmpLoop m xs ys := by
  induction n with
  | zero =>
    intro m xs ys hn _
    have hx : xs = [] := List.length_eq_zero.mp (by omega)
    have hy : ys = [] := List.length_eq_zero.mp (by omega)
    subst hx; subst hy
    rw [cmpLoop_nil_nil, cmpLoop_nil_nil]
  | succ n ih =>
    intro m xs ys hn hm
    match m with
    | 0 =>
      have hx : xs = [] := List.length_eq_zero.mp (by omega)
      have hy : ys = [] := List.length_eq_zero.mp (by omega)
      subst hx; subst hy
      rw [cmpLoop_nil_nil, cmpLoop_nil_nil]
    | m + 1 =>
      simp only [cmpLoop]
      rcases lt_trichotomy (xs.headD 0) (ys.headD 0) with h | h | h
      · rw [if_neg (by omega), if_pos h, if_neg (by omega), if_pos h]
      · rw [if_neg (by omega), if_neg (by omega), if_neg (by omega), if_neg (by omega)]
        exact ih m xs.tail ys.tail
          (by simp [List.length_tail]; omega) (by simp [List.length_tail]; omega)
      · rw [if_pos h, if_pos h]

theorem compareVersions_eq_cmpLoop (v1 v2 : String) (n : Nat)
    (h : max (versionParts v1).length (versionParts v2).length ≤ n) :
    compareVersions v1 v2 = cmpLoop n (versionParts v1) (versionParts v2) :=
  cmpLoop_fuel _ n _ _ le_rfl h

theorem compareVersions_refl (a : String) : compareVersions a a = 0 :=
  cmpLoop_refl _ _

theorem compareVersions_antisymm (a b : String) :
    compareVersions a b = -compareVersions b a := by
  simp only [compareVersions]
  rw [Nat.max_comm (versionParts b).length]
  exact cmpLoop_antisymm _ _ _

theorem compareVersions_trans_ge (a b c : String)
    (h1 : 0 ≤ compareVersions a b) (h2 : 0 ≤ compareVersions b c) :
    0 ≤ compareVersions a c := by
  set n := max (versionParts a).length
    (max (versionParts b).length (versionParts c).length) with hn
  rw [compareVersions_eq_cmpLoop a b n (by omega)] at h1
  rw [compareVersions_eq_cmpLoop b c n (by omega)] at h2
  rw [compareVersions_eq_cmpLoop a c n (by omega)]
  exact cmpLoop_trans_ge n _ _ _ h1 h2

theorem cmpLoop_cases (n : Nat) :
    ∀ xs ys : List Int, cmpLoop n xs ys = -1 ∨ cmpLoop n xs ys = 0 ∨
      cmpLoop n xs ys = 1 := by
  induction n with
  | zero => intro xs ys; simp [cmpLoop]
  | succ n ih =>
    intro xs ys
    simp only [cmpLoop]
    rcases lt_trichotomy (xs.headD 0) (ys.headD 0) with h | h | h
    · rw [if_neg (by omega), if_pos h]; simp
    · rw [if_neg (by omega), if_neg (by omega)]; exact ih _ _
    · rw [if_pos h]; simp

theorem compareVersions_cases (a b : String) :
    compareVersions a b = -1 ∨ compareVersions a b = 0 ∨ compareVersions a b = 1 :=
  cmpLoop_cases _ _ _

/-! ### Claim theorems about the pure leaves -/

/-- C5: `shouldReceiveUpdate(deviceId, percentage)` returns `true` for every
device when `percentage >= 100`, `false` for every device when
`percentage <= 0`, and otherwise returns `true` exactly when the stable
32-bit hash of the device id, reduced modulo 100, is strictly below the
percentage.  Determinism (same answer on every call for the same pair) is
intrinsic: `shouldReceiveUpdate` is a pure function of `(deviceId,
percentage)` with no other inputs. -/
theorem shouldReceiveUpdate_contract (d : String) (p : Int) :
    (100 ≤ p → shouldReceiveUpdate d p = true) ∧
    (p ≤ 0 → shouldReceiveUpdate d p = false) ∧
    (0 < p → p < 100 → (shouldReceiveUpdate d p = true ↔ simpleHash d % 100 < p)) := by
  unfold shouldReceiveUpdate
  refine ⟨fun h => ?_, fun h => ?_, fun h1 h2 => ?_⟩
  · rw [if_pos h]
  · rw [if_neg (by omega), if_pos h]
  · rw [if_neg (by omega), if_neg (by omega)]
    simp

theorem shouldReceiveUpdate_contract_witness :
    shouldReceiveUpdate "device_abc123" 150 = true ∧
    shouldReceiveUpdate "device_abc123" 0 = false ∧
    (shouldReceiveUpdate "device_abc123" 50 = true ↔
      simpleHash "device_abc123" % 100 < 50) :=
  ⟨(shouldReceiveUpdate_contract "device_abc123" 150).1 (by decide),
   (shouldReceiveUpdate_contract "device_abc123" 0).2.1 (by decide),
   (shouldReceiveUpdate_contract "device_abc123" 50).2.2 (by decide) (by decide)⟩

/-- C9: `compareVersions` is reflexive (`compare(a,a) = 0`), antisymmetric
(`compare(a,b) = -compare(b,a)`), the induced ordering is transitive on every
triple (stated for the non-strict order `compare ≥ 0`, for equality, and for
the strict order `compare = 1`), and missing trailing components count as
zero, so `compare("1.2", "1.2.0") = 0`. -/
theorem compareVersions_props :
    (∀ a : String, compareVersions a a = 0) ∧
    (∀ a b : String, compareVersions a b = -compareVersions b a) ∧
    (∀ a b c : String, 0 ≤ compareVersions a b → 0 ≤ compareVersions b c →
      0 ≤ compareVersions a c) ∧
    (∀ a b c : String, compareVersions a b = 0 → compareVersions b c = 0 →
      compareVersions a c = 0) ∧
    (∀ a b c : String, compareVersions a b = 1 → compareVersions b c = 1 →
      compareVersions a c = 1) ∧
    compareVersions "1.2" "1.2.0" = 0 := by
  refine ⟨compareVersions_refl, compareVersions_antisymm, compareVersions_trans_ge,
    ?_, ?_, by decide⟩
  · intro a b c h1 h2
    have hge := compareVersions_trans_ge a b c (by omega) (by omega)
    have hca := compareVersions_antisymm c a
    have hba := compareVersions_antisymm b a
    have hcb := compareVersions_antisymm c b
    have := compareVersions_trans_ge c b a (by omega) (by omega)
    omega
  · intro a b c h1 h2
    have hge := compareVersions_trans_ge a b c (by omega) (by omega)
    rcases compareVersions_cases a c with h | h | h
    · omega
    · exfalso
      have hca := compareVersions_antisymm c a
      have hcb := compareVersions_antisymm c b
      have := compareVersions_trans_ge c a b (by omega) (by omega)
      omega
    · exact h

theorem compareVersions_props_witness :
    compareVersions "1.0" "1.0" = 0 ∧
    compareVersions "1.2" "1.2.0.0" = 0 ∧
    0 ≤ compareVersions "2.0" "1.0" ∧
    compareVersions "2.0" "1.5" = 1 :=
  ⟨compareVersions_props.1 "1.0",
   compareVersions_props.2.2.2.1 "1.2" "1.2.0" "1.2.0.0" (by decide) (by decide),
   compareVersions_props.2.2.1 "2.0" "1.5" "1.0" (by decide) (by decide),
   compareVersions_props.2.2.2.2.1 "2.0" "1.7" "1.5" (by decide) (by decide)⟩

/-! ### Resolver lemmas and the C2 claim -/

theorem find?_split {α : Type} (p : α → Bool) :
    ∀ (l : List α) (a : α), l.find? p = some a →
      ∃ pre post, l = pre ++ a :: post ∧ (∀ x ∈ pre, p x = false) ∧ p a = true := by
  intro l
  induction l with
  | nil => intro a h; simp [List.find?] at h
  | cons x xs ih =>
    intro a h
    by_cases hx : p x
    · rw [List.find?_cons_of_pos _ hx] at h
      cases h
      exact ⟨[], xs, rfl, by simp, hx⟩
    · rw [List.find?_cons_of_neg _ (by simpa using hx)] at h
      obtain ⟨pre, post, he, hpre, hpa⟩ := ih a h
      refine ⟨x :: pre, post, by rw [he]; rfl, ?_, hpa⟩
      intro y hy
      rcases List.mem_cons.mp hy with rfl | hy
      · simpa using hx
      · exact hpre y hy

theorem mem_activeReleaseRows {db : DB} {a c : String} {x : ReleaseWithRollout} :
    x ∈ activeReleaseRows db a c ↔
      ∃ r ∈ db.releases, ∃ ro ∈ db.rollouts,
        r.app_id = a ∧ r.channel_id = c ∧ ro.release_id = r.id ∧
        ro.is_active = true ∧ x = ⟨r, ro.percentage⟩ := by
  unfold activeReleaseRows
  simp only [List.mem_flatMap]
  constructor
  · rintro ⟨r, hr, hx⟩
    by_cases hc : r.app_id = a ∧ r.channel_id = c
    · rw [if_pos hc] at hx
      simp only [List.mem_map, List.mem_filter, decide_eq_true_eq] at hx
      obtain ⟨ro, ⟨hro, h3, h4⟩, rfl⟩ := hx
      exact ⟨r, hr, ro, hro, hc.1, hc.2, h3, h4, rfl⟩
    · rw [if_neg hc] at hx
      simp at hx
  · rintro ⟨r, hr, ro, hro, h1, h2, h3, h4, rfl⟩
    refine ⟨r, hr, ?_⟩
    rw [if_pos ⟨h1, h2⟩]
    simp only [List.mem_map, List.mem_filter, decide_eq_true_eq]
    exact ⟨ro, ⟨hro, h3, h4⟩, rfl⟩

theorem candidateRows_subset (db : DB) (a c : String) :
    candidateRows db a c ⊆ activeReleaseRows db a c := fun _ hx =>
  (List.perm_insertionSort newerFirst _).mem_iff.mp (List.take_subset _ _ hx)

theorem candidateRows_sorted (db : DB) (a c : String) :
    List.Sorted newerFirst (candidateRows db a c) :=
  (List.sorted_insertionSort newerFirst _).sublist (List.take_sublist _ _)

theorem isAppVersionCompatible_iff (v : String) (minA maxA : Option String)
    (hmin : minA ≠ some "") (hmax : maxA ≠ some "") :
    isAppVersionCompatible v minA maxA = true ↔
      (∀ m, minA = some m → 0 ≤ compareVersions v m) ∧
      (∀ m, maxA = some m → compareVersions v m ≤ 0) := by
  unfold isAppVersionCompatible
  rcases minA with _ | m <;> rcases maxA with _ | M
  · simp
  · have hM : M ≠ "" := fun h => hmax (by rw [h])
    simp only [Option.getD_none, Option.getD_some, ne_eq, not_true_eq_false,
      false_and, if_false]
    by_cases hgt : compareVersions v M > 0
    · rw [if_pos ⟨hM, hgt⟩]
      simp only [Bool.false_eq_true, false_iff]
      intro ⟨_, h2⟩
      have := h2 M rfl
      omega
    · rw [if_neg (fun h => hgt h.2)]
      simp only [true_iff]
      exact ⟨by simp, fun m hm => by cases hm; omega⟩
  · have hm : m ≠ "" := fun h => hmin (by rw [h])
    simp only [Option.getD_none, Option.getD_some]
    by_cases hlt : compareVersions v m < 0
    · rw [if_pos ⟨hm, hlt⟩]
      simp only [Bool.false_eq_true, false_iff]
      intro ⟨h1, _⟩
      have := h1 m rfl
      omega
    · rw [if_neg (fun h => hlt h.2), if_neg (by simp)]
      simp only [true_iff]
      exact ⟨fun x hx => by cases hx; omega, by simp⟩
  · have hm : m ≠ "" := fun h => hmin (by rw [h])
    have hM : M ≠ "" := fun h => hmax (by rw [h])
    simp only [Option.getD_some]
    by_cases hlt : compareVersions v m < 0
    · rw [if_pos ⟨hm, hlt⟩]
      simp only [Bool.false_eq_true, false_iff]
      intro ⟨h1, _⟩
      have := h1 m rfl
      omega
    · rw [if_neg (fun h => hlt h.2)]
      by_cases hgt : compareVersions v M > 0
      · rw [if_pos ⟨hM, hgt⟩]
        simp only [Bool.false_eq_true, false_iff]
        intro ⟨_, h2⟩
        have := h2 M rfl
        omega
      · rw [if_neg (fun h => hgt h.2)]
        simp only [true_iff]
        exact ⟨fun x hx => by cases hx; omega, fun x hx => by cases hx; omega⟩

/-- C2: the resolver considers at most the 10 most-recently-created releases
of the `(app, channel)` carrying an active rollout (the candidate list is
drawn from the active join, holds at most 10 rows, and is ordered
newest-first); it returns the first candidate that passes the
`[minAppVersion, maxAppVersion]` compatibility test (each bound inclusive
when present and non-empty, unbounded when absent) and whose rollout
percentage includes the device, every earlier candidate failing that test;
it returns `none` exactly when every candidate fails; in particular a
release with a non-empty `minAppVersion` below which the device's app
version compares is never returned. -/
theorem getLatestActiveRelease_spec (db : DB) (appId channelId deviceId appVersion : String) :
    (candidateRows db appId channelId).length ≤ 10 ∧
    List.Sorted newerFirst (candidateRows db appId channelId) ∧
    (∀ x ∈ candidateRows db appId channelId,
      ∃ r ∈ db.releases, ∃ ro ∈ db.rollouts,
        r.app_id = appId ∧ r.channel_id = channelId ∧ ro.release_id = r.id ∧
        ro.is_active = true ∧ x = ⟨r, ro.percentage⟩) ∧
    (∀ row, getLatestActiveRelease db appId channelId deviceId appVersion = some row →
      isAppVersionCompatible appVersion row.release.min_app_version
        row.release.max_app_version = true ∧
      shouldReceiveUpdate deviceId row.rollout_percentage = true ∧
      ∃ pre post, candidateRows db appId channelId = pre ++ row :: post ∧
        ∀ x ∈ pre, wantsRow deviceId appVersion x = false) ∧
    (getLatestActiveRelease db appId channelId deviceId appVersion = none →
      ∀ x ∈ candidateRows db appId channelId, wantsRow deviceId appVersion x = false) ∧
    (∀ row m, getLatestActiveRelease db appId channelId deviceId appVersion = some row →
      row.release.min_app_version = some m → m ≠ "" →
      0 ≤ compareVersions appVersion m) ∧
    (∀ v minA maxA, minA ≠ some "" → maxA ≠ some "" →
      (isAppVersionCompatible v minA maxA = true ↔
        (∀ m, minA = some m → 0 ≤ compareVersions v m) ∧
        (∀ m, maxA = some m → compareVersions v m ≤ 0))) := by
  have hcompat : ∀ row,
      getLatestActiveRelease db appId channelId deviceId appVersion = some row →
      isAppVersionCompatible appVersion row.release.min_app_version
        row.release.max_app_version = true ∧
      shouldReceiveUpdate deviceId row.rollout_percentage = true := by
    intro row h
    have hp := List.find?_some h
    unfold wantsRow at hp
    exact ⟨(Bool.and_eq_true _ _ |>.mp hp).1, (Bool.and_eq_true _ _ |>.mp hp).2⟩
  refine ⟨List.length_take_le _ _, candidateRows_sorted db appId channelId,
    fun x hx => mem_activeReleaseRows.mp (candidateRows_subset db appId channelId hx),
    fun row h => ⟨(hcompat row h).1, (hcompat row h).2, ?_⟩, ?_, ?_,
    fun v minA maxA => isAppVersionCompatible_iff v minA maxA⟩
  · obtain ⟨pre, post, he, hpre, _⟩ := find?_split _ _ _ h
    exact ⟨pre, post, he, hpre⟩
  · intro h x hx
    have := List.find?_eq_none.mp h x hx
    simpa using this
  · intro row m h hm hne
    have hc := (hcompat row h).1
    unfold isAppVersionCompatible at hc
    rw [hm] at hc
    simp only [Option.getD_some] at hc
    by_cases hlt : compareVersions appVersion m < 0
    · rw [if_pos ⟨hne, hlt⟩] at hc
      cases hc
    · omega

theorem getLatestActiveRelease_spec_witness :
    0 ≤ compareVersions "2.5" "2.0.0" ∧
    wantsRow "device_abc123" "1.0.0" ⟨relA, 0⟩ = false :=
  ⟨(getLatestActiveRelease_spec dbAB "app1" "ch1" "device_abc123" "2.5").2.2.2.2.2.1
      ⟨relB, 100⟩ "2.0.0" (by decide) (by decide) (by decide),
   (getLatestActiveRelease_spec dbZero "app1" "ch1" "device_abc123" "1.0.0").2.2.2.2.1
      (by decide) ⟨relA, 0⟩ (by decide)⟩

/-! ### Rollout-invariant lemmas and the C1 claim -/

theorem countP_or_le {α : Type} (p q : α → Bool) :
    ∀ l : List α, l.countP (fun x => q x || p x) ≤ l.countP q + l.countP p := by
  intro l
  induction l with
  | nil => simp
  | cons x xs ih =>
    by_cases hq : q x <;> by_cases hp : p x <;>
      simp [List.countP_cons, hq, hp] <;> omega

theorem nodup_map_inj {α β : Type} {l : List α} {f : α → β}
    (h : (l.map f).Nodup) :
    ∀ x ∈ l, ∀ y ∈ l, f x = f y → x = y := by
  induction l with
  | nil => simp
  | cons z zs ih =>
    simp only [List.map_cons, List.nodup_cons] at h
    intro x hx y hy hxy
    rcases List.mem_cons.mp hx with hxz | hx
    · rcases List.mem_cons.mp hy with hyz | hy
      · rw [hxz, hyz]
      · exfalso
        apply h.1
        rw [← hxz, hxy]
        exact List.mem_map_of_mem f hy
    · rcases List.mem_cons.mp hy with hyz | hy
      · exfalso
        apply h.1
        rw [← hyz, ← hxy]
        exact List.mem_map_of_mem f hx
      · exact ih h.2 x hx y hy hxy

theorem nodup_map_countP {α : Type} {l : List α} {f : α → String}
    (h : (l.map f).Nodup) (t : String) :
    l.countP (fun x => f x = t) ≤ 1 := by
  induction l with
  | nil => simp
  | cons z zs ih =>
    simp only [List.map_cons, List.nodup_cons] at h
    rw [List.countP_cons]
    by_cases hz : f z = t
    · have hrest : zs.countP (fun x => decide (f x = t)) = 0 := by
        rw [List.countP_eq_zero]
        intro y hy
        simp only [decide_eq_true_eq]
        intro hyt
        exact h.1 (by rw [hz, ← hyt]; exact List.mem_map_of_mem f hy)
      simp [hz, hrest]
    · have hif : ¬ (decide (f z = t) = true) := by simpa using hz
      rw [if_neg hif]
      simpa using ih h.2

theorem length_activeRollouts (db : DB) (a c : String) :
    (activeRollouts db a c).length =
      db.rollouts.countP
        (fun ro => ro.is_active && chMember db.releases a c ro.release_id) := by
  unfold activeRollouts
  exact (List.countP_eq_length_filter _ _).symm

theorem countP_map_le {α : Type} (l : List α) (f : α → α) (p : α → Bool)
    (h : ∀ x ∈ l, p (f x) = true → p x = true) :
    (l.map f).countP p ≤ l.countP p := by
  rw [List.countP_map]
  exact List.countP_mono_left h

/-- Deactivating rollouts (under any condition) can only shrink the set of
active rollouts a channel reader sees. -/
theorem deact_map_le (rs : List Release) (l : List Rollout)
    (cond : Rollout → Bool) (a c : String) :
    ((l.map fun ro =>
        if cond ro then { ro with is_active := false } else ro).countP
      fun ro => ro.is_active && chMember rs a c ro.release_id) ≤
      l.countP fun ro => ro.is_active && chMember rs a c ro.release_id := by
  apply countP_map_le
  intro ro _ h
  by_cases hc : cond ro
  · rw [if_pos hc] at h
    simp at h
  · rwa [if_neg hc] at h

theorem rollbackDeactivate_le (db : DB) (a0 c0 a c : String) :
    (activeRollouts (rollbackDeactivate db a0 c0) a c).length ≤
      (activeRollouts db a c).length := by
  rw [length_activeRollouts, length_activeRollouts]
  exact deact_map_le _ _ _ _ _

theorem deactivatePreviousRollouts_le (db : DB) (a0 c0 excl a c : String) :
    (activeRollouts (deactivatePreviousRollouts db a0 c0 excl) a c).length ≤
      (activeRollouts db a c).length := by
  rw [length_activeRollouts, length_activeRollouts]
  exact deact_map_le _ _ _ _ _

theorem rollbackDeactivate_zero (db : DB) (a c : String) :
    (activeRollouts (rollbackDeactivate db a c) a c).length = 0 := by
  rw [length_activeRollouts]
  simp only [rollbackDeactivate]
  rw [List.countP_map, List.countP_eq_zero]
  intro ro _
  simp only [Function.comp_apply]
  by_cases hc : chMember db.releases a c ro.release_id && ro.is_active
  · rw [if_pos hc]
    simp
  · rw [if_neg hc]
    intro h
    exact hc (by rw [Bool.and_comm]; exact h)

theorem rollbackActivate_le_of_notMem (db : DB) (t a c : String)
    (h : chMember db.releases a c t = false) :
    (activeRollouts (rollbackActivate db t) a c).length ≤
      (activeRollouts db a c).length := by
  rw [length_activeRollouts, length_activeRollouts]
  simp only [rollbackActivate]
  apply countP_map_le
  intro ro _ hro
  by_cases ht : ro.release_id = t
  · rw [if_pos ht] at hro
    simp only [Bool.and_eq_true] at hro
    rw [ht] at hro
    rw [hro.2] at h
    cases h
  · rwa [if_neg ht] at hro

theorem rollbackActivate_le_count (db : DB) (t a c : String) :
    (activeRollouts (rollbackActivate db t) a c).length ≤
      db.rollouts.countP (fun ro => ro.release_id = t) +
        (activeRollouts db a c).length := by
  rw [length_activeRollouts, length_activeRollouts]
  simp only [rollbackActivate]
  rw [List.countP_map]
  refine le_trans (List.countP_mono_left (q := fun ro =>
    decide (ro.release_id = t) ||
      (ro.is_active && chMember db.releases a c ro.release_id)) ?_) (countP_or_le _ _ _)
  intro ro _ h
  simp only [Function.comp_apply] at h
  by_cases ht : ro.release_id = t
  · simp [ht]
  · rw [if_neg ht] at h
    simp [h]

theorem insertRelease_activeRollouts (db : DB) (r : Release)
    (hro : ∀ ro ∈ db.rollouts, ro.release_id ≠ r.id) (a c : String) :
    (activeRollouts (insertRelease db r) a c).length =
      (activeRollouts db a c).length := by
  rw [length_activeRollouts, length_activeRollouts]
  simp only [insertRelease]
  apply List.countP_congr
  intro ro hmem
  have hne : r.id ≠ ro.release_id := Ne.symm (hro ro hmem)
  unfold chMember
  simp [List.any_append, hne]

theorem createRollout_activeRollouts (db : DB) (roId rid : String) (pct : Int)
    (a c : String) :
    (activeRollouts (createRollout db roId rid pct) a c).length =
      (activeRollouts db a c).length +
        (if chMember db.releases a c rid then 1 else 0) := by
  rw [length_activeRollouts, length_activeRollouts]
  simp only [createRollout]
  rw [List.countP_append]
  simp [List.countP_cons]

theorem deactPrev_target_le (db : DB) (a c excl : String) :
    (activeRollouts (deactivatePreviousRollouts db a c excl) a c).length ≤
      db.rollouts.countP (fun ro => ro.release_id = excl) := by
  rw [length_activeRollouts]
  simp only [deactivatePreviousRollouts]
  rw [List.countP_map]
  apply List.countP_mono_left
  intro ro _ h
  simp only [Function.comp_apply] at h
  by_cases hc : chMemberExcept db.releases a c excl ro.release_id && ro.is_active
  · rw [if_pos hc] at h
    simp at h
  · rw [if_neg hc] at h
    simp only [Bool.and_eq_true] at h
    obtain ⟨hact, hmemb⟩ := h
    simp only [Bool.and_eq_true, not_and] at hc
    have hex : chMemberExcept db.releases a c excl ro.release_id = false := by
      cases hh : chMemberExcept db.releases a c excl ro.release_id
      · rfl
      · exact absurd hact (by simpa using hc hh)
    unfold chMember at hmemb
    unfold chMemberExcept at hex
    simp only [List.any_eq_true, decide_eq_true_eq] at hmemb
    obtain ⟨rel, hrel, hid, happ, hch⟩ := hmemb
    rw [List.any_eq_false] at hex
    have hx := hex rel hrel
    simp only [decide_eq_true_eq, not_and] at hx
    have hideq : rel.id = excl := by
      by_contra hne
      exact hx hid happ hch hne
    simp [← hid, hideq]

theorem updateRolloutPercentage_activeRollouts (db : DB) (rid : String)
    (pct : Int) (a c : String) :
    (activeRollouts (updateRolloutPercentage db rid pct) a c).length =
      (activeRollouts db a c).length := by
  rw [length_activeRollouts, length_activeRollouts]
  simp only [updateRolloutPercentage]
  rw [List.countP_map]
  apply List.countP_congr
  intro ro _
  by_cases h : ro.release_id = rid <;> simp [h, Function.comp_apply]

/-- C1 (amended): starting from a state where the observed channel has at
most one active rollout, a rollout-percentage update preserves the invariant
at every observable state; a rollback preserves it at every observable
state, including between its two writes (under the schema's uniqueness of
release ids and of one rollout row per release, with the target release
belonging to the operated channel); and a publish (insert release, create
rollout, deactivate previous rollouts) preserves it after the release insert
and re-establishes it by its final write.  Between publish's
`createRollout` and `deactivatePreviousRollouts` writes the invariant can be
violated — see the counterexample. -/
theorem rollout_invariant_ops :
    (∀ db rid pct a c, atMostOneActive db a c →
      ∀ s ∈ updateStates db rid pct, atMostOneActive s a c) ∧
    (∀ db a0 c0 t a c, (db.releases.map Release.id).Nodup →
      (db.rollouts.map Rollout.release_id).Nodup →
      (∃ rel ∈ db.releases, rel.id = t ∧ rel.app_id = a0 ∧ rel.channel_id = c0) →
      atMostOneActive db a c →
      ∀ s ∈ rollbackStates db a0 c0 t, atMostOneActive s a c) ∧
    (∀ db r roId pct a c, (∀ rel ∈ db.releases, rel.id ≠ r.id) →
      (∀ ro ∈ db.rollouts, ro.release_id ≠ r.id) →
      atMostOneActive db a c →
      atMostOneActive (insertRelease db r) a c ∧
      atMostOneActive (deactivatePreviousRollouts
        (createRollout (insertRelease db r) roId r.id pct)
        r.app_id r.channel_id r.id) a c) := by
  refine ⟨?_, ?_, ?_⟩
  · intro db rid pct a c hinv s hs
    simp only [updateStates, List.mem_cons, List.not_mem_nil, or_false] at hs
    rcases hs with rfl | rfl
    · exact hinv
    · unfold atMostOneActive at hinv ⊢
      rw [updateRolloutPercentage_activeRollouts]
      exact hinv
  · intro db a0 c0 t a c hrelN hroN htgt hinv s hs
    simp only [rollbackStates, List.mem_cons, List.not_mem_nil, or_false] at hs
    obtain ⟨rel, hrelmem, hrelid, hrelapp, hrelch⟩ := htgt
    unfold atMostOneActive at hinv ⊢
    rcases hs with rfl | rfl | rfl
    · exact hinv
    · exact le_trans (rollbackDeactivate_le db a0 c0 a c) hinv
    · by_cases hch : a = a0 ∧ c = c0
      · obtain ⟨rfl, rfl⟩ := hch
        have h1 := rollbackActivate_le_count (rollbackDeactivate db a c) t a c
        have h2 : (activeRollouts (rollbackDeactivate db a c) a c).length = 0 :=
          rollbackDeactivate_zero db a c
        have h3 : (rollbackDeactivate db a c).rollouts.countP
            (fun ro => ro.release_id = t) ≤ 1 := by
          simp only [rollbackDeactivate]
          rw [List.countP_map]
          refine le_trans (le_of_eq (List.countP_congr ?_)) (nodup_map_countP hroN t)
          intro ro _
          simp only [Function.comp_apply, decide_eq_true_eq]
          split <;> simp
        omega
      · have hmemF : chMember db.releases a c t = false := by
          cases hcm : chMember db.releases a c t
          · rfl
          · exfalso
            unfold chMember at hcm
            rw [List.any_eq_true] at hcm
            obtain ⟨r1, hr1, hprop⟩ := hcm
            simp only [decide_eq_true_eq] at hprop
            obtain ⟨hid1, happ1, hch1⟩ := hprop
            have heq : rel = r1 :=
              nodup_map_inj hrelN rel hrelmem r1 hr1 (by rw [hrelid, hid1])
            apply hch
            constructor
            · rw [← happ1, ← heq, hrelapp]
            · rw [← hch1, ← heq, hrelch]
        have hmemF1 : chMember (rollbackDeactivate db a0 c0).releases a c t = false := by
          simpa only [rollbackDeactivate] using hmemF
        exact le_trans (le_trans
          (rollbackActivate_le_of_notMem _ t a c hmemF1)
          (rollbackDeactivate_le db a0 c0 a c)) hinv
  · intro db r roId pct a c hrel hro hinv
    unfold atMostOneActive at hinv ⊢
    constructor
    · rw [insertRelease_activeRollouts db r hro a c]
      exact hinv
    · by_cases hch : a = r.app_id ∧ c = r.channel_id
      · obtain ⟨rfl, rfl⟩ := hch
        have h1 := deactPrev_target_le
          (createRollout (insertRelease db r) roId r.id pct) r.app_id r.channel_id r.id
        have h2 : (createRollout (insertRelease db r) roId r.id pct).rollouts.countP
            (fun ro => ro.release_id = r.id) ≤ 1 := by
          simp only [createRollout, insertRelease]
          rw [List.countP_append]
          have hz : db.rollouts.countP (fun ro => decide (ro.release_id = r.id)) = 0 := by
            rw [List.countP_eq_zero]
            intro ro hmem
            simpa using hro ro hmem
          simp [hz, List.countP_cons]
        exact le_trans h1 h2
      · have h3 := deactivatePreviousRollouts_le
          (createRollout (insertRelease db r) roId r.id pct) r.app_id r.channel_id r.id a c
        have hcm : chMember (insertRelease db r).releases a c r.id = false := by
          simp only [insertRelease]
          unfold chMember
          rw [List.any_eq_false]
          intro r1 hr1
          intro hcon
          rw [decide_eq_true_eq] at hcon
          obtain ⟨hid1, happ1, hch1⟩ := hcon
          rcases List.mem_append.mp hr1 with hold | hnew
          · exact hrel r1 hold hid1
          · rw [List.mem_singleton] at hnew
            subst hnew
            exact hch ⟨happ1.symm, hch1.symm⟩
        have h2 : (activeRollouts (createRollout (insertRelease db r) roId r.id pct) a c).length =
            (activeRollouts (insertRelease db r) a c).length := by
          rw [createRollout_activeRollouts (insertRelease db r) roId r.id pct a c, hcm]
          simp
        have h1 : (activeRollouts (insertRelease db r) a c).length =
            (activeRollouts db a c).length := insertRelease_activeRollouts db r hro a c
        omega

/-- C1 counterexample: starting from `dbOne`, which satisfies the
at-most-one-active-rollout invariant for `("app1", "ch1")`, the state
between publish's `createRollout` and `deactivatePreviousRollouts` writes
is observable (it is one of the publish states) and shows two
simultaneously-active rollouts for the channel, refuting the claim that the
invariant holds between the individual database writes of a publish. -/
theorem publish_window_two_active :
    atMostOneActive dbOne "app1" "ch1" ∧
    createRollout (insertRelease dbOne relC) "ro2" relC.id 100 ∈
      publishStates dbOne relC "ro2" 100 ∧
    ¬ atMostOneActive (createRollout (insertRelease dbOne relC) "ro2" relC.id 100)
        "app1" "ch1" :=
  ⟨by decide, by decide, by decide⟩

theorem rollout_invariant_ops_witness :
    atMostOneActive (updateRolloutPercentage dbOne "r1" 50) "app1" "ch1" ∧
    atMostOneActive (rollbackActivate (rollbackDeactivate dbOne "app1" "ch1") "r1")
      "app1" "ch1" ∧
    atMostOneActive (insertRelease dbOne relC) "app1" "ch1" ∧
    atMostOneActive (deactivatePreviousRollouts
      (createRollout (insertRelease dbOne relC) "ro2" relC.id 100)
      relC.app_id relC.channel_id relC.id) "app1" "ch1" :=
  ⟨rollout_invariant_ops.1 dbOne "r1" 50 "app1" "ch1" (by decide) _ (by decide),
   rollout_invariant_ops.2.1 dbOne "app1" "ch1" "r1" "app1" "ch1" (by decide)
     (by decide) (by decide) (by decide) _ (by decide),
   (rollout_invariant_ops.2.2 dbOne relC "ro2" 100 "app1" "ch1" (by decide)
     (by decide) (by decide)).1,
   (rollout_invariant_ops.2.2 dbOne relC "ro2" 100 "app1" "ch1" (by decide)
     (by decide) (by decide)).2⟩

/-! ### Verification lemmas and the C4 claim -/

/-- C4: `verifyBundle` is correct on both steps and short-circuits.  If the
tagged digest of the bytes differs from `expectedHash`, the result is the
invalid hash-mismatch record and the signature backend is never consulted
(the result is the same for every signature backend).  The signature is
consulted only when both `signature` and `publicKey` are truthy — in
particular never when either is `none` — and its failure yields the invalid
signature record.  The result is valid exactly when the hash matches and
the signature check passed or was skipped. -/
theorem verifyBundle_spec (sha : List Nat → String)
    (sigOk : List Nat → String → String → Bool) (data : List Nat)
    (expectedHash : String) (signature publicKey : Option String) :
    (calculateHash sha data ≠ expectedHash →
      verifyBundle sha sigOk data expectedHash signature publicKey =
        { valid := false, hashValid := false, signatureValid := false,
          error := some "Bundle hash mismatch" } ∧
      ∀ sigOk2, verifyBundle sha sigOk2 data expectedHash signature publicKey =
        verifyBundle sha sigOk data expectedHash signature publicKey) ∧
    ((truthy signature && truthy publicKey) = false →
      ∀ sigOk2, verifyBundle sha sigOk2 data expectedHash signature publicKey =
        verifyBundle sha sigOk data expectedHash signature publicKey) ∧
    (signature = none ∨ publicKey = none →
      (truthy signature && truthy publicKey) = false) ∧
    (calculateHash sha data = expectedHash →
      (truthy signature && truthy publicKey) = true →
      sigOk data (signature.getD "") (publicKey.getD "") = false →
      verifyBundle sha sigOk data expectedHash signature publicKey =
        { valid := false, hashValid := true, signatureValid := false,
          error := some "Invalid bundle signature" }) ∧
    ((verifyBundle sha sigOk data expectedHash signature publicKey).valid = true ↔
      (calculateHash sha data = expectedHash ∧
        ((truthy signature && truthy publicKey) = true →
          sigOk data (signature.getD "") (publicKey.getD "") = true))) := by
  refine ⟨?_, ?_, ?_, ?_, ?_⟩
  · intro hne
    have hb : verifyBundleHash sha data expectedHash = false := by
      unfold verifyBundleHash
      simpa using hne
    constructor
    · unfold verifyBundle
      rw [hb]
      simp
    · intro s2
      unfold verifyBundle
      rw [hb]
      simp
  · intro hts s2
    have hns : ¬ (truthy signature = true ∧ truthy publicKey = true) := by
      rw [← Bool.and_eq_true]
      simp [hts]
    unfold verifyBundle
    cases hb : verifyBundleHash sha data expectedHash
    · simp [hb]
    · simp [hb, hns]
  · rintro (rfl | rfl) <;> simp [truthy]
  · intro hhash htr hsig
    have hb : verifyBundleHash sha data expectedHash = true := by
      unfold verifyBundleHash
      simpa using hhash
    unfold verifyBundle
    rw [if_neg (by simp [hb]), if_pos (Bool.and_eq_true _ _ |>.mp htr), hsig]
    simp
  · unfold verifyBundle
    by_cases hb : verifyBundleHash sha data expectedHash
    · have hhash : calculateHash sha data = expectedHash := by
        unfold verifyBundleHash at hb
        simpa using hb
      rw [if_neg (by simp [hb])]
      by_cases hts : truthy signature = true ∧ truthy publicKey = true
      · rw [if_pos hts]
        by_cases hs : sigOk data (signature.getD "") (publicKey.getD "")
        · rw [if_pos hs]
          simp [hhash, hs]
        · rw [if_neg (by simpa using hs)]
          simp only [Bool.false_eq_true, false_iff, not_and]
          intro _
          rw [Bool.and_eq_true]
          intro hcon
          have := hcon hts
          rw [this] at hs
          exact hs rfl
      · rw [if_neg hts]
        simp only [true_iff]
        refine ⟨hhash, fun hcon => ?_⟩
        rw [Bool.and_eq_true] at hcon
        exact absurd hcon hts
    · have hhash : ¬ calculateHash sha data = expectedHash := by
        unfold verifyBundleHash at hb
        simpa using hb
      rw [if_pos (by simpa using hb)]
      simp [hhash]

theorem verifyBundle_spec_witness :
    verifyBundle shaFix sigFix [1, 2, 3] "nope" none none =
      { valid := false, hashValid := false, signatureValid := false,
        error := some "Bundle hash mismatch" } ∧
    (verifyBundle shaFix sigFix [1, 2, 3] (calculateHash shaFix [1, 2, 3])
      none none).valid = true :=
  ⟨((verifyBundle_spec shaFix sigFix [1, 2, 3] "nope" none none).1 (by decide)).1,
   ((verifyBundle_spec shaFix sigFix [1, 2, 3] (calculateHash shaFix [1, 2, 3])
      none none).2.2.2.2).mpr ⟨rfl, by decide⟩⟩

/-! ### Storage lemmas and the C10 claim -/

/-- C10: `validateBundle` is stricter than a size-and-HTML check.  It
returns `false` when the bundle file is missing, when it is shorter than 10
bytes, and when the trimmed first up-to-1000 bytes carry an HTML marker; it
also returns `false` whenever the content matches none of the fixed
JavaScript indicator patterns, so content that is neither HTML nor
JavaScript-looking is rejected; and startup recovery
(`clearCorruptedBundle`) then clears bundle, metadata and native pointer
together. -/
theorem validateBundle_spec (cs : ClientStore) (rid : String) :
    (readBundle cs rid = none → validateBundle cs rid = false) ∧
    (∀ data, readBundle cs rid = some data → data.length < 10 →
      validateBundle cs rid = false) ∧
    (∀ data, readBundle cs rid = some data → ¬ data.length < 10 →
      looksHtml (trimChars (bytesToChars (data.take 1000))) = true →
      validateBundle cs rid = false) ∧
    (∀ data, readBundle cs rid = some data → ¬ data.length < 10 →
      jsIndicator (trimChars (bytesToChars (data.take 1000))) = false →
      jsSubstrIndicator (trimChars (bytesToChars (data.take 1000))) = false →
      validateBundle cs rid = false) ∧
    (∀ md, cs.metadata = some md → validateBundle cs md.releaseId = false →
      clearCorruptedBundle cs =
        (true, clearNativePendingBundle (clearMetadata (deleteBundle cs md.releaseId)))) := by
  refine ⟨?_, ?_, ?_, ?_, ?_⟩
  · intro h
    unfold validateBundle
    rw [h]
  · intro data h hlen
    unfold validateBundle
    rw [h]
    simp [hlen]
  · intro data h hlen hhtml
    unfold validateBundle
    rw [h]
    simp [hlen, hhtml]
  · intro data h hlen hjs hsub
    unfold validateBundle
    rw [h]
    by_cases hht : looksHtml (trimChars (bytesToChars (data.take 1000))) <;>
      simp [hlen, hjs, hsub, hht]
  · intro md hmd hval
    unfold clearCorruptedBundle
    rw [hmd]
    simp [hval]

theorem validateBundle_spec_witness :
    validateBundle binStore "rbin" = false ∧
    clearCorruptedBundle binStore =
      (true, clearNativePendingBundle (clearMetadata (deleteBundle binStore "rbin"))) :=
  ⟨(validateBundle_spec binStore "rbin").2.2.2.1
      [0, 1, 2, 3, 4, 5, 6, 7, 8, 9, 250, 251, 252, 253, 254, 255]
      (by decide) (by decide) (by decide) (by decide),
   (validateBundle_spec binStore "rbin").2.2.2.2 mdBin (by decide) (by decide)⟩

/-! ### Download-step lemmas and the C7 claim -/

/-- C7 (amended): for every failure during the download or the verify step
of `downloadUpdate`, the agent ends in the `error` state and a `failure`
event carrying the error message is reported; the client store is left
exactly as it was — no deletion is performed.  Since the bundle is written
only after verification succeeds, the failing attempt itself stages no new
file, but a bundle file already present for that release (from an earlier
attempt) is not deleted either — see the counterexample. -/
theorem downloadUpdate_failure_spec (sha : List Nat → String)
    (sigOk : List Nat → String → String → Bool) (release : ReleaseInfo)
    (publicKey : Option String) (dl : Except String (List Nat)) (s : AgentState) :
    (∀ msg, dl = Except.error msg →
      (downloadUpdate sha sigOk release publicKey dl s).status = .error ∧
      (downloadUpdate sha sigOk release publicKey dl s).lastError = some msg ∧
      (⟨"failure", release.id, some msg⟩ : ClientEvent) ∈
        (downloadUpdate sha sigOk release publicKey dl s).events ∧
      (downloadUpdate sha sigOk release publicKey dl s).store = s.store) ∧
    (∀ data, dl = Except.ok data →
      (verifyBundle sha sigOk data release.bundleHash
        release.bundleSignature publicKey).valid = false →
      (downloadUpdate sha sigOk release publicKey dl s).status = .error ∧
      (downloadUpdate sha sigOk release publicKey dl s).lastError =
        some ((verifyBundle sha sigOk data release.bundleHash
          release.bundleSignature publicKey).error.getD "Bundle verification failed") ∧
      (⟨"failure", release.id,
          some ((verifyBundle sha sigOk data release.bundleHash
            release.bundleSignature publicKey).error.getD "Bundle verification failed")⟩ :
        ClientEvent) ∈ (downloadUpdate sha sigOk release publicKey dl s).events ∧
      (downloadUpdate sha sigOk release publicKey dl s).store = s.store) := by
  constructor
  · rintro msg rfl
    unfold downloadUpdate
    simp
  · rintro data rfl hv
    unfold downloadUpdate
    simp [hv]

/-- C7 counterexample: a download failure for a release whose bundle file
is already staged reports the failure and reaches `error`, but the staged
artifact for that release is still present afterwards — the claimed
deletion does not happen. -/
theorem downloadUpdate_no_cleanup :
    (downloadUpdate shaFix sigFix relX none (Except.error "network down")
      staleState).status = UpdateStatus.error ∧
    (⟨"failure", "rX", some "network down"⟩ : ClientEvent) ∈
      (downloadUpdate shaFix sigFix relX none (Except.error "network down")
        staleState).events ∧
    readBundle (downloadUpdate shaFix sigFix relX none (Except.error "network down")
      staleState).store "rX" = some [1, 2, 3] :=
  ⟨by decide, by decide, by decide⟩

theorem downloadUpdate_failure_spec_witness :
    (downloadUpdate shaFix sigFix relX none (Except.error "network down")
      staleState).store = staleState.store ∧
    (downloadUpdate shaFix sigFix relX none (Except.ok [9, 9])
      staleState).status = UpdateStatus.error :=
  ⟨((downloadUpdate_failure_spec shaFix sigFix relX none
      (Except.error "network down") staleState).1 "network down" rfl).2.2.2,
   ((downloadUpdate_failure_spec shaFix sigFix relX none
      (Except.ok [9, 9]) staleState).2 [9, 9] rfl (by decide)).1⟩

/-! ### Route lemmas and the C3, C6, C8 claims -/

theorem okPair_resp {x : CheckUpdateResponse} {s s' : ServerState}
    {r : CheckUpdateResponse}
    (h : ((RouteReply.ok x, s) : RouteReply × ServerState) = (.ok r, s')) :
    r = x := by
  rw [Prod.mk.injEq] at h
  obtain ⟨h1, _⟩ := h
  injection h1 with h2
  exact h2.symm

/-- The cache-hit revalidation: whatever the cached row says, the tail of
the handler answers no-update whenever the live rollout is missing or
excludes the device. -/
theorem finishCheck_rollout_gate (st : ServerState) (baseUrl : String)
    (app : App) (req : CheckUpdateRequest) (cr : CachedLatestRelease)
    (hro : st.db.rollouts.find?
        (fun ro => ro.release_id = cr.releaseId ∧ ro.is_active) = none ∨
      ∃ ro, st.db.rollouts.find?
          (fun ro => ro.release_id = cr.releaseId ∧ ro.is_active) = some ro ∧
        shouldReceiveUpdate req.deviceId ro.percentage = false) :
    ∀ r st', finishCheck st baseUrl app req cr = (.ok r, st') →
      r.updateAvailable = false := by
  intro r st' h
  unfold finishCheck at h
  by_cases hc : isAppVersionCompatible req.appVersion cr.minAppVersion cr.maxAppVersion
  · rw [if_neg (not_not_intro hc)] at h
    rcases hro with hnone | ⟨ro, hsome, hrecv⟩
    · rw [hnone] at h
      dsimp only at h
      rw [okPair_resp h]
    · rw [hsome] at h
      dsimp only at h
      rw [if_pos (show ¬ shouldReceiveUpdate req.deviceId ro.percentage = true by
        simp [hrecv])] at h
      rw [okPair_resp h]
  · rw [if_pos hc] at h
    rw [okPair_resp h]

/-- The current-version gate: an update is served only when the comparator
places the (truthy) current version strictly below the candidate. -/
theorem finishCheck_version_gate (st : ServerState) (baseUrl : String)
    (app : App) (req : CheckUpdateRequest) (cr : CachedLatestRelease)
    (cv : String) (hcv : req.currentVersion = some cv) (hne : cv ≠ "") :
    ∀ r st', finishCheck st baseUrl app req cr = (.ok r, st') →
      r.updateAvailable = true →
      r.release = some ⟨cr.releaseId, cr.version,
        getBundleUrl baseUrl app.id cr.releaseId, cr.bundleHash,
        cr.bundleSignature, cr.bundleSize, cr.isMandatory, cr.releaseNotes⟩ ∧
      compareVersions cv cr.version < 0 := by
  intro r st' h htrue
  unfold finishCheck at h
  by_cases hc : isAppVersionCompatible req.appVersion cr.minAppVersion cr.maxAppVersion
  · rw [if_neg (not_not_intro hc)] at h
    cases hfind : st.db.rollouts.find?
        (fun ro => ro.release_id = cr.releaseId ∧ ro.is_active) with
    | none =>
      rw [hfind] at h
      dsimp only at h
      rw [okPair_resp h] at htrue
      simp at htrue
    | some ro =>
      rw [hfind] at h
      dsimp only at h
      by_cases hrecv : shouldReceiveUpdate req.deviceId ro.percentage
      · rw [if_neg (not_not_intro hrecv)] at h
        by_cases hver : req.currentVersion.getD "" ≠ "" ∧
            compareVersions (req.currentVersion.getD "") cr.version ≥ 0
        · rw [if_pos hver] at h
          rw [okPair_resp h] at htrue
          simp at htrue
        · rw [if_neg hver] at h
          refine ⟨by rw [okPair_resp h], ?_⟩
          rw [hcv] at hver
          simp only [Option.getD_some] at hver
          have hlt : ¬ compareVersions cv cr.version ≥ 0 :=
            fun hge => hver ⟨hne, hge⟩
          omega
      · rw [if_pos hrecv] at h
        rw [okPair_resp h] at htrue
        simp at htrue
  · rw [if_pos hc] at h
    rw [okPair_resp h] at htrue
    simp at htrue

/-- C6: a check-update response served from a cache hit is decided by the
live rollout, not the cached one: whenever the request finds a cached
resolution, the handler re-reads the candidate release's active rollout and
answers `updateAvailable: false` whenever no active rollout exists or
`shouldReceiveUpdate` on the live percentage is false — the cached entry
stores no percentage at all, so the decision cannot use a stale one. -/
theorem checkUpdate_cache_hit_live (st : ServerState) (baseUrl : String)
    (req : CheckUpdateRequest) (cr : CachedLatestRelease)
    (hhit : getCachedLatestRelease st.cache req.appSlug req.channel req.platform =
      some cr)
    (hro : st.db.rollouts.find?
        (fun ro => ro.release_id = cr.releaseId ∧ ro.is_active) = none ∨
      ∃ ro, st.db.rollouts.find?
          (fun ro => ro.release_id = cr.releaseId ∧ ro.is_active) = some ro ∧
        shouldReceiveUpdate req.deviceId ro.percentage = false) :
    ∀ r st', checkUpdate st baseUrl req = (.ok r, st') →
      r.updateAvailable = false := by
  intro r st' h
  unfold checkUpdate at h
  by_cases h1 : req.appSlug = "" ∨ req.channel = "" ∨ req.platform = "" ∨
      req.appVersion = "" ∨ req.deviceId = ""
  · rw [if_pos h1] at h
    simp at h
  · rw [if_neg h1] at h
    by_cases h2 : ¬ (req.platform = "ios" ∨ req.platform = "android")
    · rw [if_pos h2] at h
      simp at h
    · rw [if_neg h2] at h
      cases happ : st.apps.find? fun a => a.slug = req.appSlug with
      | none =>
        rw [happ] at h
        simp at h
      | some app =>
        rw [happ] at h
        dsimp only at h
        by_cases h3 : app.platform ≠ "both" ∧ app.platform ≠ req.platform
        · rw [if_pos h3] at h
          simp at h
        · rw [if_neg h3] at h
          cases hchn : st.channels.find?
              (fun ch => ch.app_id = app.id ∧ ch.name = req.channel) with
          | none =>
            rw [hchn] at h
            simp at h
          | some channel =>
            rw [hchn] at h
            dsimp only at h
            rw [hhit] at h
            dsimp only at h
            refine finishCheck_rollout_gate _ baseUrl app req cr ?_ r st' h
            exact hro

/-- C3 (amended): for a request whose `currentVersion` is present and
non-empty, an update is served only when the comparator places it strictly
below the served release's version — in particular a device already on the
served version never receives it again.  (A present-but-empty
`currentVersion` skips the gate — see the counterexample.) -/
theorem checkUpdate_version_gate (st : ServerState) (baseUrl : String)
    (req : CheckUpdateRequest) (cv : String)
    (hcv : req.currentVersion = some cv) (hne : cv ≠ "") :
    ∀ r st', checkUpdate st baseUrl req = (.ok r, st') →
      r.updateAvailable = true →
      ∃ rr, r.release = some rr ∧ compareVersions cv rr.version < 0 ∧
        rr.version ≠ cv := by
  intro r st' h htrue
  have conc : ∀ (stX : ServerState) (app : App) (cr : CachedLatestRelease),
      finishCheck stX baseUrl app req cr = (.ok r, st') →
      ∃ rr, r.release = some rr ∧ compareVersions cv rr.version < 0 ∧
        rr.version ≠ cv := by
    intro stX app cr hfin
    obtain ⟨hrel, hlt⟩ := finishCheck_version_gate stX baseUrl app req cr cv
      hcv hne r st' hfin htrue
    refine ⟨_, hrel, hlt, fun heq => ?_⟩
    have hv : cr.version = cv := heq
    rw [hv] at hlt
    have := compareVersions_refl cv
    omega
  unfold checkUpdate at h
  by_cases h1 : req.appSlug = "" ∨ req.channel = "" ∨ req.platform = "" ∨
      req.appVersion = "" ∨ req.deviceId = ""
  · rw [if_pos h1] at h
    simp at h
  · rw [if_neg h1] at h
    by_cases h2 : ¬ (req.platform = "ios" ∨ req.platform = "android")
    · rw [if_pos h2] at h
      simp at h
    · rw [if_neg h2] at h
      cases happ : st.apps.find? fun a => a.slug = req.appSlug with
      | none =>
        rw [happ] at h
        simp at h
      | some app =>
        rw [happ] at h
        dsimp only at h
        by_cases h3 : app.platform ≠ "both" ∧ app.platform ≠ req.platform
        · rw [if_pos h3] at h
          simp at h
        · rw [if_neg h3] at h
          cases hchn : st.channels.find?
              (fun ch => ch.app_id = app.id ∧ ch.name = req.channel) with
          | none =>
            rw [hchn] at h
            simp at h
          | some channel =>
            rw [hchn] at h
            dsimp only at h
            cases hcache : getCachedLatestRelease st.cache req.appSlug
                req.channel req.platform with
            | some cr =>
              rw [hcache] at h
              dsimp only at h
              exact conc _ app cr h
            | none =>
              rw [hcache] at h
              dsimp only at h
              cases hres : getLatestActiveRelease st.db app.id channel.id
                  req.deviceId req.appVersion with
              | none =>
                rw [hres] at h
                dsimp only at h
                rw [okPair_resp h] at htrue
                simp at htrue
              | some rel =>
                rw [hres] at h
                dsimp only at h
                exact conc _ app (toCachedRelease rel) h

/-- C3 counterexample: `currentVersion` may be the empty string, which is
non-null; the handler's `body.currentVersion &&` truthiness test then skips
the comparator gate entirely, and a release of version `"0.0.0"` — which
the comparator reports equal to `""` — is served anyway. -/
theorem checkUpdate_empty_currentVersion :
    reqEmptyCv.currentVersion = some "" ∧
    0 ≤ compareVersions "" "0.0.0" ∧
    (checkUpdate srvZ "http://s" reqEmptyCv).1 =
      .ok ⟨true, some ⟨"rz", "0.0.0", getBundleUrl "http://s" "a1" "rz",
        "sha256:z", none, 3, false, none⟩⟩ :=
  ⟨rfl, by decide, by decide⟩

theorem checkUpdate_version_gate_witness :
    ∃ rr, (⟨true, some (⟨"rg", "2.0.0", getBundleUrl "http://s" "a1" "rg",
        "sha256:g", none, 3, false, none⟩ : ReleaseResp)⟩ :
      CheckUpdateResponse).release = some rr ∧
      compareVersions "1.0.0" rr.version < 0 ∧ rr.version ≠ "1.0.0" :=
  checkUpdate_version_gate srvG "http://s" reqCv1 "1.0.0" rfl (by decide)
    ⟨true, some ⟨"rg", "2.0.0", getBundleUrl "http://s" "a1" "rg",
      "sha256:g", none, 3, false, none⟩⟩
    { srvG with
      cache := [(latestReleaseKey "app" "production" "ios",
        ⟨"rg", "2.0.0", "sha256:g", none, 3, false, none, none, none⟩)]
      events := srvG.events ++ [⟨"a1", none, "device_abc123", "check", some "1.0.0", none⟩] }
    (by decide) (by decide)

/-- C8: the report-event endpoint, for requests with truthy required fields
naming an existing app, records and acknowledges exactly the event types
`download`, `apply`, `success`, `failure` and `rollback`, and rejects every
other event type with a validation error, leaving the state unchanged.
(`check` is not in the accepted set — see the counterexample.) -/
theorem reportEvent_spec (st : ServerState) (req : ReportEventRequest)
    (h1 : req.appSlug ≠ "") (h2 : req.deviceId ≠ "") (h3 : req.eventType ≠ "") :
    ∀ app, st.apps.find? (fun a => a.slug = req.appSlug) = some app →
      (req.eventType ∈ validEventTypes →
        reportEvent st req = (.ok, { st with
          events := st.events ++ [⟨app.id, jsOrNull req.releaseId, req.deviceId,
            req.eventType, jsOrNull req.appVersion, jsOrNull req.errorMessage⟩] })) ∧
      (req.eventType ∉ validEventTypes →
        reportEvent st req =
          (.badRequest "eventType must be one of: download, apply, success, failure, rollback", st)) ∧
      validEventTypes = ["download", "apply", "success", "failure", "rollback"] := by
  intro app happ
  have hreq : ¬ (req.appSlug = "" ∨ req.deviceId = "" ∨ req.eventType = "") := by
    rintro (h | h | h) <;> contradiction
  refine ⟨?_, ?_, rfl⟩
  · intro hmem
    unfold reportEvent
    rw [if_neg hreq, if_neg (not_not_intro hmem), happ]
  · intro hmem
    unfold reportEvent
    rw [if_neg hreq, if_pos hmem]

/-- C8 counterexample: the event type `check` — which the claim includes in
the accepted set — is rejected with the validation error on a request
naming an existing app, and no event is recorded. -/
theorem reportEvent_check_rejected :
    (srvZ.apps.find? fun a => a.slug = "app") = some ⟨"a1", "app", "both"⟩ ∧
    reportEvent srvZ reqCheckEvt =
      (.badRequest "eventType must be one of: download, apply, success, failure, rollback", srvZ) :=
  ⟨by decide, by decide⟩

theorem reportEvent_spec_witness :
    reportEvent srvZ ⟨"app", none, "d1", "download", none, none⟩ =
      (.ok, { srvZ with
        events := srvZ.events ++ [⟨"a1", none, "d1", "download", none, none⟩] }) ∧
    reportEvent srvZ reqCheckEvt =
      (.badRequest "eventType must be one of: download, apply, success, failure, rollback", srvZ) :=
  ⟨(reportEvent_spec srvZ ⟨"app", none, "d1", "download", none, none⟩
      (by decide) (by decide) (by decide) ⟨"a1", "app", "both"⟩ (by decide)).1
      (by decide),
   (reportEvent_spec srvZ reqCheckEvt (by decide) (by decide) (by decide)
      ⟨"a1", "app", "both"⟩ (by decide)).2.1 (by decide)⟩

theorem checkUpdate_cache_hit_live_witness :
    (⟨false, none⟩ : CheckUpdateResponse).updateAvailable = false :=
  checkUpdate_cache_hit_live srvHitZero "http://s" reqPlain crZ (by decide)
    (Or.inr ⟨⟨"roz", "rz", 0, true⟩, by decide, by decide⟩)
    ⟨false, none⟩
    { srvHitZero with
      events := srvHitZero.events ++ [⟨"a1", none, "device_abc123", "check", some "1.0.0", none⟩] }
    (by decide)

end OTA
